import Mathlib

/-!
Verification of the Ankh fluorescence-regression example notebook
(`examples/regression_fluorosence_task.ipynb`).

The notebook is a linear pipeline: load sequences and labels, preprocess
(truncate each protein sequence to a maximum length and split it into a
character list), embed each sequence with the frozen pretrained Ankh
encoder under `torch.no_grad()`, wrap (embedding, label) pairs in a
`FluorescenceDataset`, and hand everything to the HuggingFace `Trainer`
configured by `training_args`.

This file shallowly embeds those pieces and proves the data-plumbing
properties of the pipeline.
-/

namespace Ankh

/-- A protein sequence, as the notebook manipulates it after
`list(seq[:max_length])`: an ordered list of residue characters. -/
abbrev Seq : Type := List Char

/-- Python slice `l[a:b]` for a non-negative start `a` and a possibly
negative stop `b` (a negative stop counts from the end, clamped at 0). -/
def pySlice {ρ : Type} (l : List ρ) (a : Nat) (b : Int) : List ρ :=
  let n := l.length
  let stop : Nat := if b < 0 then ((n : Int) + b).toNat else min b.toNat n
  (l.take stop).drop a

/-- The truncation `seq[:max_length]` performed inside
`preprocess_dataset`: keep at most `L` leading residues. -/
def truncate (s : Seq) (L : Nat) : Seq :=
  pySlice s 0 (L : Int)

/-- Python `max(sequences, key=lambda x: len(x))`: the first element of
maximal length, or `none` on an empty list (Python raises `ValueError`). -/
def pyMaxByLen : List Seq → Option Seq
  | [] => none
  | x :: xs => some (xs.foldl (fun best y => if best.length < y.length then y else best) x)

/-- `preprocess_dataset(sequences, labels, max_length)` from the notebook.
When `max_length` is `None` the bound is the length of the longest
sequence in the *global* `training_sequences` at call time, so that list
is an explicit argument here.  Returns the character-split truncated
sequences paired with the labels exactly as given; `none` models the
`ValueError` Python raises when `max_length is None` and
`training_sequences` is empty. -/
def preprocess_dataset {α : Type} (training_sequences : List Seq)
    (sequences : List Seq) (labels : List α) (max_length : Option Nat) :
    Option (List Seq × List α) :=
  match max_length with
  | some L => some (sequences.map (fun seq => truncate seq L), labels)
  | none =>
    (pyMaxByLen training_sequences).map
      (fun m => (sequences.map (fun seq => truncate seq m.length), labels))

/-- A token produced by the Ankh tokenizer: one token per residue plus
special/boundary tokens. -/
inductive Token where
  | residue (c : Char)
  | eos
deriving DecidableEq

/-- Modelled from the spec: the Ankh tokenizer (loaded by
`ankh.load_large_model()`, not under `src/`) with
`add_special_tokens=True` maps each residue to one token and appends a
single end-of-sequence boundary token ("trimming special tokens" /
"special/boundary tokens added by the tokenizer"). -/
def tokenize (seq : Seq) : List Token :=
  seq.map Token.residue ++ [Token.eos]

/-- The singleton batch `[sample]` that `embed_dataset` hands to
`tokenizer.batch_encode_plus` on every iteration. -/
def singletonBatch (sample : Seq) : List Seq :=
  [sample]

/-- The pretrained encoder's run-time state: its parameters and its
train/eval mode flag. -/
structure EncoderState (P : Type) where
  params : P
  training : Bool

/-- `model.eval()` from the notebook's setup cell: switch the encoder to
evaluation mode, leaving the parameters untouched. -/
def evalMode {P : Type} (m : EncoderState P) : EncoderState P :=
  { m with training := false }

/-- Modelled from the spec: one forward pass of the frozen pretrained
encoder (not under `src/`) under `torch.no_grad()` — "a per-sample
forward pass through a frozen encoder under no-gradient evaluation".  It
produces one embedding row per input token of each batch element and
performs no parameter update, so the encoder state is returned
unchanged. -/
def forwardNoGrad {P Row : Type} (encode : P → Token → Row)
    (st : EncoderState P) (ids : List (List Token)) :
    List (List Row) × EncoderState P :=
  (ids.map (fun ts => ts.map (encode st.params)), st)

/-- One iteration of the loop in `embed_dataset`: tokenize the singleton
batch `[sample]` with special tokens, run the forward pass under
`torch.no_grad()`, take batch element 0 and keep rows
`[shift_left : shift_right]`. -/
def embedOne {P Row : Type} (encode : P → Token → Row)
    (st : EncoderState P) (shiftL : Nat) (shiftR : Int) (sample : Seq) :
    List Row × EncoderState P :=
  let ids := (singletonBatch sample).map tokenize
  let out := forwardNoGrad encode st ids
  (pySlice (out.1.headD []) shiftL shiftR, out.2)

/-- `embed_dataset(model, sequences, shift_left=0, shift_right=-1)` from
the notebook: a sequential loop producing one embedding per sequence,
threading the encoder state through each per-sample forward pass. -/
def embed_dataset {P Row : Type} (encode : P → Token → Row) :
    EncoderState P → List Seq → Nat → Int → List (List Row) × EncoderState P
  | st, [], _, _ => ([], st)
  | st, sample :: rest, sl, sr =>
    let r := embedOne encode st sl sr sample
    let rs := embed_dataset encode r.2 rest sl sr
    (r.1 :: rs.1, rs.2)

/-- A torch tensor as the dataset adapter builds one for a label:
`torch.tensor(label, dtype=torch.float32)` then `.unsqueeze(-1)`.  The
dtype string, the shape and the carried values are recorded. -/
structure LabelTensor (α : Type) where
  dtype : String
  shape : List Nat
  data : List α
deriving DecidableEq

/-- `torch.tensor(label, dtype=torch.float32)`: a 0-dimensional float32
tensor holding the scalar label. -/
def torchScalarF32 {α : Type} (x : α) : LabelTensor α :=
  ⟨"float32", [], [x]⟩

/-- `Tensor.unsqueeze(-1)`: append a trailing singleton dimension. -/
def LabelTensor.unsqueezeNeg1 {α : Type} (t : LabelTensor α) : LabelTensor α :=
  ⟨t.dtype, t.shape ++ [1], t.data⟩

/-- `torch.tensor(sample)` for the embedding: a tensor carrying the
sample's values unchanged. -/
structure EmbedTensor (E : Type) where
  data : E
deriving DecidableEq

/-- The item dictionary returned by `FluorescenceDataset.__getitem__`:
the `'embed'` tensor and the `'labels'` tensor. -/
structure Item (E α : Type) where
  embed : EmbedTensor E
  labels : LabelTensor α
deriving DecidableEq

/-- The `FluorescenceDataset` adapter: it stores the embeddings (as
`sequences`) and the labels it was constructed with. -/
structure FluorescenceDataset (E α : Type) where
  sequences : List E
  labels : List α

/-- `FluorescenceDataset.__getitem__(idx)`: the `idx`-th embedding as a
tensor together with the `idx`-th label as a float32 tensor with a
trailing singleton dimension; `none` models Python's `IndexError`. -/
def FluorescenceDataset.getitem {E α : Type} (d : FluorescenceDataset E α)
    (idx : Nat) : Option (Item E α) :=
  match d.sequences.get? idx, d.labels.get? idx with
  | some s, some l => some ⟨⟨s⟩, (torchScalarF32 l).unsqueezeNeg1⟩
  | _, _ => none

/-- `FluorescenceDataset.__len__`: the number of labels. -/
def FluorescenceDataset.len {E α : Type} (d : FluorescenceDataset E α) : Nat :=
  d.labels.length

/-- The HuggingFace `TrainingArguments` fields set by the notebook. -/
structure TrainingArguments where
  output_dir : String
  num_train_epochs : Nat
  per_device_train_batch_size : Nat
  per_device_eval_batch_size : Nat
  warmup_steps : Nat
  learning_rate : Float
  weight_decay : Float
  logging_dir : String
  logging_steps : Nat
  do_train : Bool
  do_eval : Bool
  evaluation_strategy : String
  gradient_accumulation_steps : Nat
  fp16 : Bool
  fp16_opt_level : String
  run_name : String
  seed : Nat
  load_best_model_at_end : Bool
  metric_for_best_model : String
  greater_is_better : Bool
  save_strategy : String

/-- The `training_args` instance built in the notebook
(`experiment = "flu_ankh_large"`, `seed = 7`). -/
def training_args : TrainingArguments :=
  { output_dir := "./results_flu_ankh_large"
    num_train_epochs := 5
    per_device_train_batch_size := 1
    per_device_eval_batch_size := 1
    warmup_steps := 1000
    learning_rate := 0.001
    weight_decay := 0.0
    logging_dir := "./logs_flu_ankh_large"
    logging_steps := 200
    do_train := true
    do_eval := true
    evaluation_strategy := "epoch"
    gradient_accumulation_steps := 16
    fp16 := false
    fp16_opt_level := "02"
    run_name := "flu_ankh_large"
    seed := 7
    load_best_model_at_end := true
    metric_for_best_model := "eval_spearmanr"
    greater_is_better := true
    save_strategy := "epoch" }

/-- The `EvalPrediction` handed to `compute_metrics`. -/
structure EvalPrediction where
  label_ids : List Float
  predictions : List Float

/-- `compute_metrics` from the notebook: a single metric named
`"spearmanr"`, computed by an external rank-correlation routine
(`scipy.stats.spearmanr`), taken as a parameter. -/
def compute_metrics (spearman : List Float → List Float → Float)
    (p : EvalPrediction) : List (String × Float) :=
  [("spearmanr", spearman p.label_ids p.predictions)]

/-! ### Helper lemmas -/

theorem truncate_eq_take (s : Seq) (L : Nat) : truncate s L = s.take L := by
  simp only [truncate, pySlice, List.drop_zero]
  have h1 : ¬((L : Int) < 0) := by omega
  have h2 : (L : Int).toNat = L := by omega
  rw [if_neg h1, h2]
  rcases Nat.le_total L s.length with h | h
  · rw [Nat.min_eq_left h]
  · rw [Nat.min_eq_right h, List.take_of_length_le h, List.take_of_length_le le_rfl]

theorem truncate_of_le {s : Seq} {L : Nat} (h : s.length ≤ L) : truncate s L = s :=
  (truncate_eq_take s L).trans (List.take_of_length_le h)

theorem embedOne_fst_length {P Row : Type} (encode : P → Token → Row)
    (st : EncoderState P) (s : Seq) :
    (embedOne encode st 0 (-1) s).1.length = s.length := by
  simp [embedOne, forwardNoGrad, singletonBatch, pySlice, tokenize]

theorem embed_dataset_snd {P Row : Type} (encode : P → Token → Row)
    (st : EncoderState P) (seqs : List Seq) (a : Nat) (b : Int) :
    (embed_dataset encode st seqs a b).2 = st := by
  induction seqs generalizing st with
  | nil => rfl
  | cons s rest ih => simp [embed_dataset, embedOne, forwardNoGrad, ih]

theorem embed_dataset_fst_length {P Row : Type} (encode : P → Token → Row)
    (st : EncoderState P) (seqs : List Seq) (a : Nat) (b : Int) :
    (embed_dataset encode st seqs a b).1.length = seqs.length := by
  induction seqs generalizing st with
  | nil => rfl
  | cons s rest ih => simp [embed_dataset, ih]

theorem embed_dataset_map_length {P Row : Type} (encode : P → Token → Row)
    (st : EncoderState P) (seqs : List Seq) :
    (embed_dataset encode st seqs 0 (-1)).1.map List.length = seqs.map List.length := by
  induction seqs generalizing st with
  | nil => rfl
  | cons s rest ih =>
    simp only [embed_dataset, List.map_cons]
    rw [embedOne_fst_length, ih]

theorem foldMax_mem (xs : List Seq) (x : Seq) :
    (xs.foldl (fun best y => if best.length < y.length then y else best) x) ∈ x :: xs := by
  induction xs generalizing x with
  | nil => simp
  | cons y ys ih =>
    simp only [List.foldl_cons]
    by_cases hxy : x.length < y.length
    · rw [if_pos hxy]
      rcases List.mem_cons.mp (ih y) with h1 | h1
      · simp [h1]
      · simp [h1]
    · rw [if_neg hxy]
      rcases List.mem_cons.mp (ih x) with h1 | h1
      · simp [h1]
      · simp [h1]

theorem foldMax_le (xs : List Seq) (x : Seq) :
    x.length ≤ ((xs.foldl (fun best y => if best.length < y.length then y else best) x)).length ∧
    ∀ y ∈ xs, y.length ≤ ((xs.foldl (fun best y => if best.length < y.length then y else best) x)).length := by
  induction xs generalizing x with
  | nil => simp
  | cons y ys ih =>
    simp only [List.foldl_cons]
    by_cases hxy : x.length < y.length
    · rw [if_pos hxy]
      refine ⟨le_trans (le_of_lt hxy) (ih y).1, ?_⟩
      intro z hz
      rcases List.mem_cons.mp hz with h1 | h1
      · subst h1
        exact (ih z).1
      · exact (ih y).2 z h1
    · rw [if_neg hxy]
      refine ⟨(ih x).1, ?_⟩
      intro z hz
      rcases List.mem_cons.mp hz with h1 | h1
      · subst h1
        exact le_trans (Nat.le_of_not_lt hxy) (ih x).1
      · exact (ih x).2 z h1

theorem pyMaxByLen_spec (x : Seq) (xs : List Seq) :
    ∃ m, pyMaxByLen (x :: xs) = some m ∧ m ∈ x :: xs ∧
      ∀ s ∈ x :: xs, s.length ≤ m.length := by
  refine ⟨_, rfl, foldMax_mem xs x, ?_⟩
  intro s hs
  rcases List.mem_cons.mp hs with h1 | h1
  · subst h1; exact (foldMax_le xs s).1
  · exact (foldMax_le xs x).2 s h1

/-! ### Claim theorems -/

/-- C1: for every input sequence `s` and every maximum length `L`, the
preprocessor's truncation produces a character list whose length equals
`min (len s) L` — deterministic truncation. -/
theorem truncate_length_min (s : Seq) (L : Nat) :
    (truncate s L).length = min s.length L := by
  rw [truncate_eq_take, List.length_take, Nat.min_comm]

/-- C2: with `add_special_tokens=True` and the default slice
`[shift_left=0 : shift_right=-1]`, every embedding returned by
`embed_dataset` has exactly one row per residue of the (truncated)
input sequence: the row counts equal the sequence lengths. -/
theorem embed_rows_eq_residues {P Row : Type} (encode : P → Token → Row)
    (st : EncoderState P) (seqs : List Seq) :
    (embed_dataset encode st seqs 0 (-1)).1.map List.length = seqs.map List.length :=
  embed_dataset_map_length encode st seqs

/-- C3: after preprocessing and embedding extraction, the number of
embeddings equals the number of labels of the split: `embed_dataset`
returns exactly one embedding per input sequence and
`preprocess_dataset` returns the labels it was given. -/
theorem embeddings_align_labels {α P Row : Type} (encode : P → Token → Row)
    (st : EncoderState P) (training_seqs seqs : List Seq) (labels : List α)
    (maxL : Option Nat) (out : List Seq × List α)
    (h : seqs.length = labels.length)
    (hp : preprocess_dataset training_seqs seqs labels maxL = some out) :
    (embed_dataset encode st out.1 0 (-1)).1.length = out.2.length ∧ out.2 = labels := by
  have key : ∀ (f : Seq → Seq), out = (seqs.map f, labels) →
      (embed_dataset encode st out.1 0 (-1)).1.length = out.2.length ∧ out.2 = labels := by
    intro f hf
    subst hf
    refine ⟨?_, rfl⟩
    rw [embed_dataset_fst_length]
    simp [h]
  rcases maxL with _ | L
  · simp only [preprocess_dataset] at hp
    rcases hmax : pyMaxByLen training_seqs with _ | m
    · rw [hmax] at hp
      simp at hp
    · rw [hmax] at hp
      simp only [Option.map_some', Option.some.injEq] at hp
      exact key _ hp.symm
  · simp only [preprocess_dataset, Option.some.injEq] at hp
    exact key _ hp.symm

/-- C3 witness: a concrete split of one sequence and one label. -/
theorem embeddings_align_labels_check :
    (embed_dataset (fun (_ : Unit) (_ : Token) => (0 : Nat)) ⟨(), false⟩
        (([['A', 'B']], [(3 : Int)]) : List Seq × List Int).1 0 (-1)).1.length =
      (([['A', 'B']], [(3 : Int)]) : List Seq × List Int).2.length ∧
    (([['A', 'B']], [(3 : Int)]) : List Seq × List Int).2 = [(3 : Int)] :=
  embeddings_align_labels (fun (_ : Unit) (_ : Token) => (0 : Nat)) ⟨(), false⟩
    [['A']] [['A', 'B']] [(3 : Int)] (some 5) ([['A', 'B']], [(3 : Int)])
    (by decide) (by decide)

/-- C4 counterexample: the preprocessor does NOT pad short sequences to
the maximum length — with `max_length = 3` the one-residue sequence
`"A"` comes out with length 1, not 3. -/
theorem preprocess_no_padding_cex :
    preprocess_dataset ([] : List Seq) [['A']] [(0 : Int)] (some 3) =
      some ([['A']], [(0 : Int)]) ∧ (['A'] : Seq).length ≠ 3 := by
  decide

/-- C4 (amended): the preprocessor truncates each sequence to at most
the maximum length and converts it to a character list; longer
sequences are post-truncated to exactly the maximum, and shorter
sequences are left unchanged (no padding is performed). -/
theorem preprocess_truncates_to_char_lists {α : Type} (training_seqs seqs : List Seq)
    (labels : List α) (L : Nat) :
    preprocess_dataset training_seqs seqs labels (some L) =
      some (seqs.map (fun s => truncate s L), labels) ∧
    (∀ s : Seq, L ≤ s.length → (truncate s L).length = L) ∧
    (∀ s : Seq, s.length ≤ L → truncate s L = s) := by
  refine ⟨rfl, ?_, fun s hs => truncate_of_le hs⟩
  intro s hs
  rw [truncate_eq_take, List.length_take, Nat.min_eq_left hs]

/-- C4 witness: concrete truncation with one long and one short sequence. -/
theorem preprocess_truncates_to_char_lists_check :
    preprocess_dataset ([] : List Seq) [['A', 'B', 'C'], ['D']] [(0 : Int), (1 : Int)] (some 2) =
      some ([['A', 'B'], ['D']], [(0 : Int), (1 : Int)]) ∧ truncate ['D'] 2 = ['D'] := by
  have h := preprocess_truncates_to_char_lists ([] : List Seq)
    [['A', 'B', 'C'], ['D']] [(0 : Int), (1 : Int)] 2
  exact ⟨h.1.trans (by decide), h.2.2 ['D'] (by decide)⟩

/-- C5: the dataset adapter's `__getitem__` returns, for every in-range
index, exactly the `idx`-th stored embedding paired with the `idx`-th
stored label (wrapped in tensors); both access operations are pure
reads, so the stored pairs are never modified. -/
theorem getitem_indexed_access {E α : Type} (d : FluorescenceDataset E α) (idx : Nat)
    (h1 : idx < d.sequences.length) (h2 : idx < d.labels.length) :
    d.getitem idx =
      some ⟨⟨d.sequences.get ⟨idx, h1⟩⟩,
            (torchScalarF32 (d.labels.get ⟨idx, h2⟩)).unsqueezeNeg1⟩ := by
  unfold FluorescenceDataset.getitem
  rw [List.get?_eq_get h1, List.get?_eq_get h2]

/-- C5 witness: a concrete one-element dataset. -/
theorem getitem_indexed_access_check :
    (FluorescenceDataset.mk [(10 : Nat)] [(20 : Int)]).getitem 0 =
      some ⟨⟨10⟩, (torchScalarF32 (20 : Int)).unsqueezeNeg1⟩ :=
  getitem_indexed_access (FluorescenceDataset.mk [(10 : Nat)] [(20 : Int)]) 0
    (by decide) (by decide)

/-- C6: the trainer is configured for epoch-based evaluation and
checkpoint selection maximizing the Spearman metric: evaluation and
saving happen every epoch, the best model is loaded at the end, the
selection metric is `eval_spearmanr` (the `eval_` prefix of the single
metric `compute_metrics` reports), and greater values are preferred. -/
theorem trainer_config_epoch_spearman :
    training_args.evaluation_strategy = "epoch" ∧
    training_args.save_strategy = "epoch" ∧
    training_args.load_best_model_at_end = true ∧
    training_args.metric_for_best_model = "eval_spearmanr" ∧
    training_args.greater_is_better = true ∧
    training_args.metric_for_best_model = "eval_" ++ "spearmanr" ∧
    ∀ (spearman : List Float → List Float → Float) (p : EvalPrediction),
      (compute_metrics spearman p).map Prod.fst = ["spearmanr"] :=
  ⟨rfl, rfl, rfl, rfl, rfl, rfl, fun _ _ => rfl⟩

/-- C7: processing is batch-size-one and sequential: each loop iteration
of `embed_dataset` tokenizes the singleton batch `[sample]` (length 1)
and runs one forward pass before the rest of the list is processed, and
the trainer's per-device train and eval batch sizes are both 1. -/
theorem batch_size_one_sequential :
    (∀ s : Seq, (singletonBatch s).length = 1) ∧
    (∀ (P Row : Type) (encode : P → Token → Row) (st : EncoderState P)
        (sl : Nat) (sr : Int) (s : Seq) (rest : List Seq),
      embed_dataset encode st (s :: rest) sl sr =
        ((embedOne encode st sl sr s).1 ::
            (embed_dataset encode (embedOne encode st sl sr s).2 rest sl sr).1,
          (embed_dataset encode (embedOne encode st sl sr s).2 rest sl sr).2)) ∧
    training_args.per_device_train_batch_size = 1 ∧
    training_args.per_device_eval_batch_size = 1 :=
  ⟨fun _ => rfl, fun _ _ _ _ _ _ _ _ => rfl, rfl, rfl⟩

/-- C8: embedding extraction is a per-sample forward pass through a
frozen encoder under no-gradient evaluation: the encoder is put in eval
mode before extraction, and extracting a split's embeddings leaves the
encoder state — in particular its parameters — unchanged. -/
theorem frozen_encoder_no_grad {P Row : Type} (encode : P → Token → Row)
    (m : EncoderState P) (seqs : List Seq) (a : Nat) (b : Int) :
    (evalMode m).training = false ∧
    (embed_dataset encode (evalMode m) seqs a b).2 = evalMode m ∧
    (embed_dataset encode (evalMode m) seqs a b).2.params = m.params := by
  refine ⟨rfl, embed_dataset_snd encode (evalMode m) seqs a b, ?_⟩
  rw [embed_dataset_snd]
  rfl

/-- C9: with `max_length = None` the truncation bound is the length of
the longest sequence in the global `training_sequences` at call time;
truncating the training split to its own maximum returns it unchanged,
so after `training_sequences` is rebound the validation and test calls
compute the identical bound and all three splits are truncated to the
same maximum training-sequence length. -/
theorem shared_truncation_bound {α : Type} (ts : List Seq) (labels : List α)
    (h : ts ≠ []) :
    ∃ m, pyMaxByLen ts = some m ∧ m ∈ ts ∧ (∀ s ∈ ts, s.length ≤ m.length) ∧
      preprocess_dataset ts ts labels none = some (ts, labels) ∧
      ∀ (seqs2 : List Seq) (labels2 : List α),
        preprocess_dataset ts seqs2 labels2 none =
          some (seqs2.map (fun s => truncate s m.length), labels2) := by
  rcases ts with _ | ⟨x, xs⟩
  · exact absurd rfl h
  obtain ⟨m, hm, hmem, hle⟩ := pyMaxByLen_spec x xs
  refine ⟨m, hm, hmem, hle, ?_, ?_⟩
  · have hid : (x :: xs).map (fun s => truncate s m.length) = x :: xs :=
      calc (x :: xs).map (fun s => truncate s m.length)
          = (x :: xs).map id := List.map_congr_left (fun s hs => truncate_of_le (hle s hs))
        _ = x :: xs := List.map_id _
    simp only [preprocess_dataset, hm, Option.map_some', hid]
  · intro seqs2 labels2
    simp only [preprocess_dataset, hm, Option.map_some']

/-- C9 witness: a concrete two-sequence training split. -/
theorem shared_truncation_bound_check :
    ∃ m, pyMaxByLen ([['A', 'B'], ['C']] : List Seq) = some m ∧
      m ∈ ([['A', 'B'], ['C']] : List Seq) ∧
      (∀ s ∈ ([['A', 'B'], ['C']] : List Seq), s.length ≤ m.length) ∧
      preprocess_dataset [['A', 'B'], ['C']] [['A', 'B'], ['C']] [(1 : Int), (2 : Int)] none =
        some ([['A', 'B'], ['C']], [(1 : Int), (2 : Int)]) ∧
      ∀ (seqs2 : List Seq) (labels2 : List Int),
        preprocess_dataset [['A', 'B'], ['C']] seqs2 labels2 none =
          some (seqs2.map (fun s => truncate s m.length), labels2) :=
  shared_truncation_bound [['A', 'B'], ['C']] [(1 : Int), (2 : Int)] (by decide)

/-- C10: `__getitem__` returns the label as a float32 tensor with a
trailing singleton dimension appended — a scalar label becomes a tensor
of shape `(1,)` — and `__len__` returns the number of labels. -/
theorem getitem_label_shape_len {E α : Type} (d : FluorescenceDataset E α) (idx : Nat)
    (h1 : idx < d.sequences.length) (h2 : idx < d.labels.length) :
    (∃ it : Item E α, d.getitem idx = some it ∧
      it.labels.dtype = "float32" ∧ it.labels.shape = [1] ∧
      it.labels.data = [d.labels.get ⟨idx, h2⟩]) ∧
    d.len = d.labels.length := by
  refine ⟨⟨⟨⟨d.sequences.get ⟨idx, h1⟩⟩,
      (torchScalarF32 (d.labels.get ⟨idx, h2⟩)).unsqueezeNeg1⟩, ?_, rfl, rfl, rfl⟩, rfl⟩
  unfold FluorescenceDataset.getitem
  rw [List.get?_eq_get h1, List.get?_eq_get h2]

/-- C10 witness: a concrete one-element dataset. -/
theorem getitem_label_shape_len_check :
    (∃ it : Item Nat Int, (FluorescenceDataset.mk [(5 : Nat)] [(7 : Int)]).getitem 0 = some it ∧
      it.labels.dtype = "float32" ∧ it.labels.shape = [1] ∧ it.labels.data = [(7 : Int)]) ∧
    (FluorescenceDataset.mk [(5 : Nat)] [(7 : Int)]).len = [(7 : Int)].length :=
  getitem_label_shape_len (FluorescenceDataset.mk [(5 : Nat)] [(7 : Int)]) 0
    (by decide) (by decide)

end Ankh
